import Mathlib

/-!
Verification of the FRACAS backend (uwasystemhealth/FRACAS) against its
natural-language specification.

The development shallowly embeds the Django application code under
`src/backend/api/` (models.py, validations.py, views.py, serializers.py):
database rows become Lean structures, the database becomes explicit lists of
rows, Django ORM calls (`filter`, `get`, `exists`, `__iexact` lookups) become
list operations, Python exceptions become `Except` results, and Django's
declared `on_delete` rules (`CASCADE`, `SET_NULL`) become explicit state
transformations on the database value.
-/

deriving instance DecidableEq for Except

/- ## Data model (models.py) -/

/-- Row of the custom `User` model (models.py lines 8-32).  The primary key
`user_id` is not spelled out in models.py but is the key referenced throughout
views.py, serializers.py and the unit tests (`lookup_field = "user_id"`,
`self.user.user_id`), so it is modelled as the integer primary key.  `team` is
a nullable foreign key to `Team` declared with `on_delete=SET_NULL`. -/
structure User where
  user_id : Nat
  username : String
  first_name : Option String
  last_name : Option String
  email : String
  team : Option Nat
  deriving DecidableEq

/-- Row of the `Team` model (models.py lines 37-49): auto primary key
`team_id`, unique `team_name`, and a nullable one-to-one `team_lead`
reference to a user, declared with `on_delete=SET_NULL`. -/
structure Team where
  team_id : Nat
  team_name : String
  team_lead : Option Nat
  deriving DecidableEq

/-- Row of the `Subsystem` model (models.py lines 54-66): auto primary key,
unique name, and a nullable `parent_team` foreign key declared with
`on_delete=CASCADE`. -/
structure Subsystem where
  subsystem_id : Nat
  subsystem_name : String
  parent_team : Option Nat
  deriving DecidableEq

/-- Row of the `Record` model (models.py lines 71-111).  `record_creator`,
`record_owner` and `team` are nullable `TextField`s (free text, not foreign
keys); `subsystem` is a nullable foreign key declared with
`on_delete=SET_NULL`.  Date-time fields are modelled as integer timestamps;
the remaining free-text and boolean workflow fields are carried verbatim. -/
structure Record where
  record_id : Nat
  is_deleted : Option Bool
  status : Option String
  record_creator : Option String
  record_owner : Option String
  team : Option String
  subsystem : Option Nat
  car_year : Option String
  failure_title : Option String
  failure_description : Option String
  failure_impact : Option String
  failure_cause : Option String
  failure_mechanism : Option String
  corrective_action_plan : Option String
  record_creation_time : Nat
  is_resolved : Option Bool
  is_record_validated : Option Bool
  is_analysis_validated : Option Bool
  is_correction_validated : Option Bool
  is_reviewed : Option Bool
  deriving DecidableEq

/-- Row of the `Comment` model (models.py lines 116-131): `record_id` is a
non-nullable foreign key to `Record` with `on_delete=CASCADE`;
`parent_comment_id` is a nullable self-referencing foreign key, also
`CASCADE`; `commenter` is a nullable user reference (`SET_NULL`). -/
structure Comment where
  comment_id : Nat
  record_id : Nat
  parent_comment_id : Option Nat
  commenter : Option Nat
  creation_time : Nat
  comment_text : String
  deriving DecidableEq

/-- The relational store: one list of rows per model. -/
structure Db where
  users : List User
  teams : List Team
  subsystems : List Subsystem
  records : List Record
  comments : List Comment
  deriving DecidableEq

/- ## Python string helpers used by validations.py -/

/-- Trailing and leading whitespace removal on a character list: drop
whitespace from the front, then from the back. -/
def pyStripList (l : List Char) : List Char :=
  ((l.dropWhile Char.isWhitespace).reverse.dropWhile Char.isWhitespace).reverse

/-- Python `str.strip()`: remove leading and trailing whitespace. -/
def pyStrip (s : String) : String :=
  ⟨pyStripList s.data⟩

/-- Python `len` on a string. -/
def pyLen (s : String) : Nat :=
  s.data.length

/-- Lower-casing of a string, character by character. -/
def lowerString (s : String) : String :=
  ⟨s.data.map Char.toLower⟩

/-- Django `__iexact` field lookup: case-insensitive exact string match,
i.e. equality after lower-casing both sides. -/
def iexact (stored query : String) : Bool :=
  lowerString stored == lowerString query

/-- Python `int(s)` on an unsigned decimal string: the numeric value when
every character is a digit and the string is non-empty, otherwise a raised
`ValueError` (`none`). -/
def pyParseNat (s : String) : Option Nat :=
  if s.data ≠ [] ∧ s.data.all (fun c => c.isDigit) then
    some (s.data.foldl (fun acc c => acc * 10 + (c.toNat - 48)) 0)
  else
    none

/- ## validations.py: register_validation -/

/-- Outcome of a Django `Model.objects.get(...)` call that does not return a
row: `DoesNotExist` when no row matches, `MultipleObjectsReturned` when more
than one does. -/
inductive GetErr where
  | doesNotExist
  | multipleObjectsReturned
  deriving DecidableEq

/-- Django `Team.objects.get(team_name__iexact=name)` (validations.py line
47): the unique team whose name matches case-insensitively, or the
corresponding uncaught exception. -/
def teams_get_iexact (db : Db) (name : String) : Except GetErr Team :=
  match db.teams.filter (fun t => iexact t.team_name name) with
  | [t] => .ok t
  | [] => .error .doesNotExist
  | _ => .error .multipleObjectsReturned

/-- Failure of a registration attempt: the five `serializers.ValidationError`
raise sites of `register_validation` (validations.py lines 28-37), plus the
two uncaught `Team.objects.get` exceptions that could escape from line 47. -/
inductive RegError where
  | emailTaken
  | passwordTooShort
  | firstNameRequired
  | lastNameRequired
  | passwordMismatch
  | teamDoesNotExist
  | multipleTeams
  deriving DecidableEq

/-- The submitted registration dictionary (`request.data` of a register
POST): the fields read by `register_validation`, plus `username`, which the
user-creation path requires. -/
structure RegData where
  username : String
  email : String
  first_name : String
  last_name : String
  password1 : String
  password2 : String
  team : String
  deriving DecidableEq

/-- The dictionary returned by `register_validation`: the original `email`,
`first_name`, `last_name` and `username` entries (the function strips them
into locals but never writes the stripped values back), the stripped
password under the key `password` (`password1`/`password2` are popped), the
resolved team primary key, and the `is_staff`/`is_admin` entries, present
(`some`) only when the team branch sets them. -/
structure CleanData where
  username : String
  email : String
  first_name : String
  last_name : String
  password : String
  team : Option Nat
  is_staff : Option Bool
  is_admin : Option Bool
  deriving DecidableEq

/-- Embedding of `register_validation` (validations.py lines 9-51).  Checks
run in source order: email empty-or-taken, password length, first name, last
name, password match; then the team lookup resolves the `team` entry to a
primary key via a case-insensitive exact match, silently storing `None` when
the name is empty or unmatched, and forcing `is_staff`/`is_admin` to `False`
on a successful match. -/
def register_validation (db : Db) (data : RegData) : Except RegError CleanData :=
  let email := pyStrip data.email
  let first_name := pyStrip data.first_name
  let last_name := pyStrip data.last_name
  let password1 := pyStrip data.password1
  let password2 := pyStrip data.password2
  let team := pyStrip data.team
  if email = "" ∨ db.users.any (fun u => u.email == email) = true then
    .error .emailTaken
  else if password1 = "" ∨ pyLen password1 < 8 then
    .error .passwordTooShort
  else if first_name = "" then
    .error .firstNameRequired
  else if last_name = "" then
    .error .lastNameRequired
  else if password2 = "" ∨ password1 ≠ password2 then
    .error .passwordMismatch
  else
    let base : CleanData :=
      { username := data.username, email := data.email,
        first_name := data.first_name, last_name := data.last_name,
        password := password1, team := none,
        is_staff := none, is_admin := none }
    if team = "" ∨ db.teams.any (fun t => iexact t.team_name team) = false then
      .ok base
    else
      match teams_get_iexact db team with
      | .ok t =>
          .ok { base with team := some t.team_id,
                          is_staff := some false, is_admin := some false }
      | .error .doesNotExist => .error .teamDoesNotExist
      | .error .multipleObjectsReturned => .error .multipleTeams

/-- Embedding of `UserRegister.post` (views.py lines 43-50) composed with
`UserRegisterSerializer.create` (serializers.py lines 38-57): a raised
validation error propagates and no row is inserted; otherwise a user row
built from the cleaned data is appended to the store.  `fresh_id` stands for
the auto-assigned primary key. -/
def UserRegister.post (db : Db) (data : RegData) (fresh_id : Nat) :
    Except RegError User × Db :=
  match register_validation db data with
  | .error e => (.error e, db)
  | .ok clean =>
      let u : User :=
        { user_id := fresh_id, username := clean.username,
          first_name := some clean.first_name,
          last_name := some clean.last_name,
          email := clean.email, team := clean.team }
      (.ok u, { db with users := db.users ++ [u] })

/- ## Basic lemmas about the string helpers -/

theorem length_dropWhile_le (p : Char → Bool) (l : List Char) :
    (l.dropWhile p).length ≤ l.length := by
  induction l with
  | nil => simp [List.dropWhile]
  | cons a t ih =>
      by_cases h : p a = true
      · rw [List.dropWhile_cons]
        simp only [h, if_true]
        exact Nat.le_succ_of_le ih
      · rw [List.dropWhile_cons]
        simp [h]

theorem pyLen_pyStrip_le (s : String) : pyLen (pyStrip s) ≤ pyLen s := by
  show (pyStripList s.data).length ≤ s.data.length
  unfold pyStripList
  calc (((s.data.dropWhile Char.isWhitespace).reverse.dropWhile
          Char.isWhitespace).reverse).length
      = ((s.data.dropWhile Char.isWhitespace).reverse.dropWhile
          Char.isWhitespace).length := by simp
    _ ≤ (s.data.dropWhile Char.isWhitespace).reverse.length :=
        length_dropWhile_le _ _
    _ = (s.data.dropWhile Char.isWhitespace).length := by simp
    _ ≤ s.data.length := length_dropWhile_le _ _

theorem pyLen_empty_of_eq (s : String) (h : s = "") : pyLen s = 0 := by
  subst h; rfl

/- ## Claim C2: duplicate email -/

/-- C2.  For every registration attempt whose (stripped) email is already
registered, `register_validation` raises the duplicate-email validation
error ("Email taken: choose another email.", validations.py lines 28-29),
and the register endpoint leaves the store unchanged: no new account is
created. -/
theorem register_duplicate_email (db : Db) (data : RegData) (fresh_id : Nat)
    (h : db.users.any (fun u => u.email == pyStrip data.email) = true) :
    register_validation db data = .error .emailTaken ∧
    (UserRegister.post db data fresh_id).2 = db := by
  have hv : register_validation db data = .error .emailTaken := by
    unfold register_validation
    rw [if_pos (Or.inr h)]
  exact ⟨hv, by simp [UserRegister.post, hv]⟩

/-- Witness for C2 at a concrete store and attempt. -/
theorem register_duplicate_email_witness :
    register_validation
        ⟨[⟨1, "alice", none, none, "alice@uwa.edu", none⟩], [], [], [], []⟩
        ⟨"bob", "alice@uwa.edu", "Bob", "Builder", "longpassword",
          "longpassword", ""⟩
      = .error .emailTaken ∧
    (UserRegister.post
        ⟨[⟨1, "alice", none, none, "alice@uwa.edu", none⟩], [], [], [], []⟩
        ⟨"bob", "alice@uwa.edu", "Bob", "Builder", "longpassword",
          "longpassword", ""⟩ 2).2
      = ⟨[⟨1, "alice", none, none, "alice@uwa.edu", none⟩], [], [], [], []⟩ :=
  register_duplicate_email _ _ 2 (by decide)

/- ## Claim C3: password too short -/

/-- Concrete store for the C3 counterexample: one registered user. -/
def dbX3 : Db :=
  ⟨[⟨1, "alice", none, none, "alice@uwa.edu", none⟩], [], [], [], []⟩

/-- Concrete registration attempt for the C3 counterexample: a one-character
password together with an already-registered email. -/
def dataX3 : RegData :=
  ⟨"bob", "alice@uwa.edu", "Bob", "Builder", "x", "x", ""⟩

/-- Counterexample to C3 as stated: this attempt submits a password of
length 1 < 8, yet `register_validation` raises the duplicate-email error,
not the password-too-short error, because the email check runs first
(validations.py line 28 before line 30). -/
theorem register_password_short_cex :
    pyLen dataX3.password1 < 8 ∧
    register_validation dbX3 dataX3 = .error .emailTaken ∧
    register_validation dbX3 dataX3 ≠ .error .passwordTooShort := by
  refine ⟨by decide, by decide, by decide⟩

/-- C3 (amended).  For every registration attempt whose stripped email is
non-empty and not already registered, a submitted password of length < 8
makes `register_validation` raise the password-too-short error
(validations.py lines 30-31); the length check is applied to the stripped
password, whose length is at most the submitted length. -/
theorem register_password_too_short (db : Db) (data : RegData)
    (hemail : pyStrip data.email ≠ "")
    (hfresh : db.users.any (fun u => u.email == pyStrip data.email) = false)
    (hshort : pyLen data.password1 < 8) :
    register_validation db data = .error .passwordTooShort := by
  unfold register_validation
  rw [if_neg (by
    rintro (h | h)
    · exact hemail h
    · rw [hfresh] at h; exact Bool.false_ne_true h)]
  rw [if_pos (Or.inr (Nat.lt_of_le_of_lt (pyLen_pyStrip_le _) hshort))]

/-- Witness for the amended C3 at a concrete store and attempt. -/
theorem register_password_too_short_witness :
    register_validation ⟨[], [], [], [], []⟩
        ⟨"bob", "bob@uwa.edu", "Bob", "Builder", "short", "short", ""⟩
      = .error .passwordTooShort :=
  register_password_too_short ⟨[], [], [], [], []⟩
    ⟨"bob", "bob@uwa.edu", "Bob", "Builder", "short", "short", ""⟩
    (by decide) (by decide) (by decide)

/- ## Claim C4: password mismatch -/

/-- Concrete registration attempt for the C4 counterexample: the two
password fields differ, but the first one is also shorter than 8. -/
def dataX4 : RegData :=
  ⟨"bob", "bob@uwa.edu", "Bob", "Builder", "x", "yyyyyyyyy", ""⟩

/-- Empty store for the C4 counterexample. -/
def dbX4 : Db := ⟨[], [], [], [], []⟩

/-- Counterexample to C4 as stated: this attempt submits two different
(stripped) password fields, yet `register_validation` raises the
password-too-short error, not the password-mismatch error, because the
length check runs first (validations.py line 30 before line 36). -/
theorem register_password_mismatch_cex :
    pyStrip dataX4.password1 ≠ pyStrip dataX4.password2 ∧
    register_validation dbX4 dataX4 = .error .passwordTooShort ∧
    register_validation dbX4 dataX4 ≠ .error .passwordMismatch := by
  refine ⟨by decide, by decide, by decide⟩

/-- C4 (amended).  For every registration attempt whose stripped email is
non-empty and not already registered, whose stripped password1 has length at
least 8, and whose stripped first and last names are non-empty, unequal
stripped password fields make `register_validation` raise the
password-mismatch error (validations.py lines 36-37). -/
theorem register_password_mismatch (db : Db) (data : RegData)
    (hemail : pyStrip data.email ≠ "")
    (hfresh : db.users.any (fun u => u.email == pyStrip data.email) = false)
    (hlen : 8 ≤ pyLen (pyStrip data.password1))
    (hfn : pyStrip data.first_name ≠ "")
    (hln : pyStrip data.last_name ≠ "")
    (hmis : pyStrip data.password1 ≠ pyStrip data.password2) :
    register_validation db data = .error .passwordMismatch := by
  unfold register_validation
  rw [if_neg (by
    rintro (h | h)
    · exact hemail h
    · rw [hfresh] at h; exact Bool.false_ne_true h)]
  rw [if_neg (by
    rintro (h | h)
    · rw [pyLen_empty_of_eq _ h] at hlen; omega
    · omega)]
  rw [if_neg hfn, if_neg hln]
  rw [if_pos (Or.inr hmis)]

/-- Witness for the amended C4 at a concrete store and attempt. -/
theorem register_password_mismatch_witness :
    register_validation ⟨[], [], [], [], []⟩
        ⟨"bob", "bob@uwa.edu", "Bob", "Builder", "longpassword1",
          "longpassword2", ""⟩
      = .error .passwordMismatch :=
  register_password_mismatch ⟨[], [], [], [], []⟩
    ⟨"bob", "bob@uwa.edu", "Bob", "Builder", "longpassword1",
      "longpassword2", ""⟩
    (by decide) (by decide) (by decide) (by decide) (by decide) (by decide)

/- ## Claims C5 and C6: team lookup during registration -/

/-- Helper: when the email, password-length, name and password-match checks
all pass, `register_validation` reaches the team-resolution branch
(validations.py lines 42-50). -/
theorem register_validation_team_case (db : Db) (data : RegData)
    (hemail : pyStrip data.email ≠ "")
    (hfresh : db.users.any (fun u => u.email == pyStrip data.email) = false)
    (hlen : 8 ≤ pyLen (pyStrip data.password1))
    (hfn : pyStrip data.first_name ≠ "")
    (hln : pyStrip data.last_name ≠ "")
    (hpw : pyStrip data.password1 = pyStrip data.password2) :
    register_validation db data =
      if pyStrip data.team = "" ∨
          db.teams.any (fun t => iexact t.team_name (pyStrip data.team)) = false then
        .ok { username := data.username, email := data.email,
              first_name := data.first_name, last_name := data.last_name,
              password := pyStrip data.password1, team := none,
              is_staff := none, is_admin := none }
      else
        match teams_get_iexact db (pyStrip data.team) with
        | .ok t =>
            .ok { username := data.username, email := data.email,
                  first_name := data.first_name, last_name := data.last_name,
                  password := pyStrip data.password1, team := some t.team_id,
                  is_staff := some false, is_admin := some false }
        | .error .doesNotExist => .error .teamDoesNotExist
        | .error .multipleObjectsReturned => .error .multipleTeams := by
  have hp1 : pyStrip data.password1 ≠ "" := by
    intro h
    rw [pyLen_empty_of_eq _ h] at hlen
    omega
  unfold register_validation
  rw [if_neg (by
    rintro (h | h)
    · exact hemail h
    · rw [hfresh] at h; exact Bool.false_ne_true h)]
  rw [if_neg (by
    rintro (h | h)
    · exact hp1 h
    · omega)]
  rw [if_neg hfn, if_neg hln]
  rw [if_neg (by
    rintro (h | h)
    · exact hp1 (hpw.trans h)
    · exact h hpw)]

/-- C5.  When every earlier registration check passes, team resolution is a
case-insensitive exact match on the stored team name: if a non-empty
submitted name matches the stored team `tm` (and only `tm`), validation
succeeds with `tm`'s primary key as the account's team; and when no stored
team matches the submitted name, validation still succeeds, with the new
account assigned no team rather than failing (validations.py lines 42-50). -/
theorem register_team_lookup (db : Db) (data : RegData)
    (hemail : pyStrip data.email ≠ "")
    (hfresh : db.users.any (fun u => u.email == pyStrip data.email) = false)
    (hlen : 8 ≤ pyLen (pyStrip data.password1))
    (hfn : pyStrip data.first_name ≠ "")
    (hln : pyStrip data.last_name ≠ "")
    (hpw : pyStrip data.password1 = pyStrip data.password2) :
    (∀ tm : Team,
        db.teams.filter (fun t => iexact t.team_name (pyStrip data.team)) = [tm] →
        pyStrip data.team ≠ "" →
        register_validation db data =
          .ok { username := data.username, email := data.email,
                first_name := data.first_name, last_name := data.last_name,
                password := pyStrip data.password1, team := some tm.team_id,
                is_staff := some false, is_admin := some false }) ∧
    (db.teams.any (fun t => iexact t.team_name (pyStrip data.team)) = false →
        register_validation db data =
          .ok { username := data.username, email := data.email,
                first_name := data.first_name, last_name := data.last_name,
                password := pyStrip data.password1, team := none,
                is_staff := none, is_admin := none }) := by
  have hbranch :=
    register_validation_team_case db data hemail hfresh hlen hfn hln hpw
  constructor
  · intro tm hfil hne
    have htm : tm ∈ db.teams.filter
        (fun t => iexact t.team_name (pyStrip data.team)) := by
      rw [hfil]
      exact List.mem_cons_self _ _
    have hany : db.teams.any
        (fun t => iexact t.team_name (pyStrip data.team)) = true := by
      rcases List.mem_filter.mp htm with ⟨hmem, hp⟩
      exact List.any_eq_true.mpr ⟨tm, hmem, hp⟩
    rw [hbranch, if_neg (by
      rintro (h | h)
      · exact hne h
      · rw [hany] at h; exact Bool.false_ne_true h.symm)]
    unfold teams_get_iexact
    rw [hfil]
  · intro hno
    rw [hbranch, if_pos (Or.inr hno)]

/-- Store for the C5 witness: one team named with capital letters. -/
def dbW5 : Db := ⟨[], [⟨1, "ACME", none⟩], [], [], []⟩

/-- Attempt for the C5 witness: submitted team name in lower case. -/
def dataW5 : RegData :=
  ⟨"bob", "bob@uwa.edu", "Bob", "Builder", "longpassword", "longpassword",
    "acme"⟩

/-- Witness for C5: submitted team "acme" matches the stored team "ACME"
case-insensitively and the account receives its primary key. -/
theorem register_team_lookup_witness :
    register_validation dbW5 dataW5 =
      .ok { username := dataW5.username, email := dataW5.email,
            first_name := dataW5.first_name, last_name := dataW5.last_name,
            password := pyStrip dataW5.password1, team := some 1,
            is_staff := some false, is_admin := some false } :=
  (register_team_lookup dbW5 dataW5 (by decide) (by decide) (by decide)
      (by decide) (by decide) (by decide)).1
    ⟨1, "ACME", none⟩ (by decide) (by decide)

/-- C6.  For every registration attempt whose non-empty submitted team name
matches a stored team, a successful validation forces the new account to
non-privileged status: the returned data carries `is_staff = False` and
`is_admin = False` (validations.py lines 46-50). -/
theorem register_team_match_nonprivileged (db : Db) (data : RegData)
    (c : CleanData)
    (hne : pyStrip data.team ≠ "")
    (hmatch : db.teams.any (fun t => iexact t.team_name (pyStrip data.team)) = true)
    (hok : register_validation db data = .ok c) :
    c.is_staff = some false ∧ c.is_admin = some false := by
  unfold register_validation at hok
  dsimp only at hok
  split at hok
  · exact absurd hok (by simp)
  split at hok
  · exact absurd hok (by simp)
  split at hok
  · exact absurd hok (by simp)
  split at hok
  · exact absurd hok (by simp)
  split at hok
  · exact absurd hok (by simp)
  split at hok
  · rename_i hcond
    rcases hcond with h | h
    · exact absurd h hne
    · rw [hmatch] at h
      exact absurd h.symm Bool.false_ne_true
  · split at hok
    · rename_i t ht
      injection hok with h
      subst h
      exact ⟨rfl, rfl⟩
    · exact absurd hok (by simp)
    · exact absurd hok (by simp)

/-- Store for the C6 witness. -/
def dbW6 : Db := ⟨[], [⟨3, "Powertrain", none⟩], [], [], []⟩

/-- Attempt for the C6 witness. -/
def dataW6 : RegData :=
  ⟨"bob", "bob@uwa.edu", "Bob", "Builder", "longpassword", "longpassword",
    "powertrain"⟩

/-- Cleaned data produced by the C6 witness run. -/
def cW6 : CleanData :=
  ⟨"bob", "bob@uwa.edu", "Bob", "Builder", "longpassword", some 3,
    some false, some false⟩

/-- Witness for C6 at a concrete store and attempt. -/
theorem register_team_match_nonprivileged_witness :
    cW6.is_staff = some false ∧ cW6.is_admin = some false :=
  register_team_match_nonprivileged dbW6 dataW6 cW6 (by decide) (by decide)
    (by decide)

/- ## views.py: RecordViewSet.put (C1, C10) -/

/-- Responses that `RecordViewSet.put` (views.py lines 244-260) can name:
the two 400 responses of its `except` and lookup-failure branches, the 403
permission response, and the 200 response of the `UpdateModelMixin.update`
path. -/
inductive HttpResponse where
  | recordIdRequired
  | recordDoesNotExist
  | permissionDenied
  | updatedOk
  deriving DecidableEq

/-- HTTP status code of each response of `RecordViewSet.put`. -/
def HttpResponse.status : HttpResponse → Nat
  | .recordIdRequired => 400
  | .recordDoesNotExist => 400
  | .permissionDenied => 403
  | .updatedOk => 200

/-- A record-update request: the authenticated caller (`request.user`), the
`record_id` query parameter as returned by `request.query_params.get`
(absent keys yield `None`, the call never raises), and the update payload
(`request.data`). -/
structure PutRequest where
  user : User
  query_record_id : Option String
  data : Record
  deriving DecidableEq

/-- Embedding of `Record.objects.get(record_id=record_id)` under the bare
`except` of views.py lines 250-253: an absent parameter (`None`), a
non-numeric parameter, or an unknown primary key all raise and are caught,
so the lookup yields no record. -/
def lookupRecordByParam (db : Db) (p : Option String) : Option Record :=
  match p with
  | none => none
  | some s =>
      match pyParseNat s with
      | none => none
      | some n => db.records.find? (fun r => r.record_id == n)

/-- Python `==` between the authenticated `User` instance (`request.user`)
and the value of `Record.record_creator`, which is a nullable `TextField`
(models.py line 79), hence `None` or a `str`.  Django's `Model.__eq__`
returns `NotImplemented` for a non-model operand, and `str.__eq__` and
`NoneType` likewise for a model instance, so Python falls back to identity,
which is false between distinct objects: a `User` instance never equals a
text value or `None`. -/
def userEqRecordCreator (u : User) (creator : Option String) : Bool :=
  match u, creator with
  | _, none => false
  | _, some _ => false

/-- Embedding of the `UpdateModelMixin.update` path taken by
`RecordViewSet.put` on creator match: the request payload, with its
`record_id` forced to the looked-up key (views.py line 256), replaces the
stored row with that key. -/
def recordUpdate (db : Db) (req : PutRequest) (rec : Record) :
    HttpResponse × Db :=
  let updated := { req.data with record_id := rec.record_id }
  let records :=
    db.records.map (fun r => if r.record_id == rec.record_id then updated else r)
  (.updatedOk, { db with records := records })

/-- Embedding of `RecordViewSet.put` (views.py lines 244-260).  The
`record_id` query parameter is read with a dictionary `get`, which never
raises, so the branch answering `recordIdRequired` is never taken; a failed
record lookup answers 400; then the requesting user is compared against the
stored creator reference, and only on a match is the update path invoked,
all others receiving the 403 response with the store untouched. -/
def RecordViewSet.put (db : Db) (req : PutRequest) : HttpResponse × Db :=
  let record_id := req.query_record_id
  match lookupRecordByParam db record_id with
  | none => (.recordDoesNotExist, db)
  | some existing_record =>
      if userEqRecordCreator req.user existing_record.record_creator then
        recordUpdate db req existing_record
      else
        (.permissionDenied, db)

/-- C1.  For every record-update request whose requesting user is not the
stored creator of the looked-up record, `RecordViewSet.put` answers the
403 permission-denied response and leaves the store unchanged: the creator
comparison happens before the update path is invoked (views.py lines
254-260). -/
theorem record_update_permission_denied (db : Db) (req : PutRequest)
    (rec : Record)
    (hlook : lookupRecordByParam db req.query_record_id = some rec)
    (hneq : userEqRecordCreator req.user rec.record_creator = false) :
    RecordViewSet.put db req = (.permissionDenied, db) ∧
    HttpResponse.permissionDenied.status = 403 := by
  refine ⟨?_, rfl⟩
  unfold RecordViewSet.put
  dsimp only
  rw [hlook]
  simp [hneq]

/-- Store for the C1 witness: one record created by the text reference
"alice". -/
def dbW1 : Db :=
  ⟨[], [], [],
    [⟨1, some false, none, some "alice", none, none, none, none, none, none,
      none, none, none, none, 0, some false, some false, some false,
      some false, some false⟩], []⟩

/-- Request for the C1 witness: a user other than the stored creator asks to
update record 1. -/
def reqW1 : PutRequest :=
  ⟨⟨9, "mallory", none, none, "mallory@uwa.edu", none⟩, some "1",
    ⟨1, some false, some "hacked", some "alice", none, none, none, none,
      none, none, none, none, none, none, 0, some false, some false,
      some false, some false, some false⟩⟩

/-- Witness for C1 at a concrete store and request. -/
theorem record_update_permission_denied_witness :
    RecordViewSet.put dbW1 reqW1 = (.permissionDenied, dbW1) ∧
    HttpResponse.permissionDenied.status = 403 :=
  record_update_permission_denied dbW1 reqW1
    ⟨1, some false, none, some "alice", none, none, none, none, none, none,
      none, none, none, none, 0, some false, some false, some false,
      some false, some false⟩
    (by decide) (by decide)

/-- C10.  In `RecordViewSet.put`, the branch answering the 400 response
"A record_id is required." is unreachable: reading the query parameter with
a dictionary `get` never raises, so no request produces that response, and
a request without a `record_id` parameter instead falls through to the 400
response "Record does not exist." with the store unchanged (views.py lines
246-253). -/
theorem record_put_required_unreachable (db : Db) (req : PutRequest) :
    (RecordViewSet.put db req).1 ≠ HttpResponse.recordIdRequired ∧
    (req.query_record_id = none →
      RecordViewSet.put db req = (.recordDoesNotExist, db)) := by
  constructor
  · unfold RecordViewSet.put
    dsimp only
    cases hl : lookupRecordByParam db req.query_record_id with
    | none => simp
    | some rec =>
        dsimp only
        split
        · simp [recordUpdate]
        · simp
  · intro h
    unfold RecordViewSet.put
    dsimp only
    rw [h]
    rfl

/-- Witness for C10 at a concrete store and a request with no `record_id`
parameter. -/
theorem record_put_required_unreachable_witness :
    (RecordViewSet.put dbW1
        ⟨⟨9, "mallory", none, none, "mallory@uwa.edu", none⟩, none,
          reqW1.data⟩).1 ≠ HttpResponse.recordIdRequired ∧
    RecordViewSet.put dbW1
        ⟨⟨9, "mallory", none, none, "mallory@uwa.edu", none⟩, none,
          reqW1.data⟩
      = (.recordDoesNotExist, dbW1) :=
  ⟨(record_put_required_unreachable dbW1 _).1,
    (record_put_required_unreachable dbW1 _).2 rfl⟩

/- ## views.py: TeamViewSet.lead (C9) -/

/-- Uncaught Python exceptions that the lead accessor can raise. -/
inductive PyExc where
  | attributeError
  deriving DecidableEq

/-- Embedding of `TeamViewSet.lead` (views.py lines 127-134).  The method
reads `lead = team.team_lead` and then dereferences `lead.user_id`; when the
team has no designated lead, `team_lead` is `None` and the attribute access
raises `AttributeError` instead of producing a response.  Otherwise the
users with the lead's id are returned as a collection
(`User.objects.filter(user_id=lead.user_id)`). -/
def TeamViewSet.lead (db : Db) (team : Team) : Except PyExc (List User) :=
  match team.team_lead with
  | none => .error .attributeError
  | some lid => .ok (db.users.filter (fun u => u.user_id == lid))

/-- Outcome test: did the lead accessor produce a response rather than
raising? -/
def leadIsOk : Except PyExc (List User) → Bool
  | .ok _ => true
  | .error _ => false

/-- Store for the C9 counterexample. -/
def dbX9 : Db :=
  ⟨[⟨1, "alice", none, none, "alice@uwa.edu", some 1⟩],
    [⟨1, "Powertrain", none⟩], [], [], []⟩

/-- Team with no designated lead for the C9 counterexample. -/
def teamX9 : Team := ⟨1, "Powertrain", none⟩

/-- Counterexample to C9 as stated: for a team with no designated lead the
accessor does not return any collection; it raises `AttributeError` on
`lead.user_id` (views.py line 132). -/
theorem team_lead_none_cex :
    teamX9.team_lead = none ∧
    leadIsOk (TeamViewSet.lead dbX9 teamX9) = false :=
  ⟨rfl, rfl⟩

/-- Helper: with globally unique user ids, filtering the user rows by a
stored user's id returns exactly that user, as a one-element list. -/
theorem filter_user_id_single (l : List User) (u : User)
    (hmem : u ∈ l) (hnd : (l.map User.user_id).Nodup) :
    l.filter (fun v => v.user_id == u.user_id) = [u] := by
  induction l with
  | nil => cases hmem
  | cons a t ih =>
      rw [List.map_cons, List.nodup_cons] at hnd
      rcases hnd with ⟨hnin, hnd2⟩
      rcases List.mem_cons.mp hmem with rfl | hmem2
      · rw [List.filter_cons_of_pos (by simp)]
        have hnone : ∀ v ∈ t, ¬((fun v => v.user_id == u.user_id) v = true) := by
          intro v hv hbeq
          rw [beq_iff_eq] at hbeq
          exact hnin (List.mem_map.mpr ⟨v, hv, hbeq⟩)
        rw [List.filter_eq_nil_iff.mpr hnone]
      · have hne : ((fun v => v.user_id == u.user_id) a) = false := by
          rw [beq_eq_false_iff_ne]
          intro he
          exact hnin (he ▸ List.mem_map.mpr ⟨u, hmem2, rfl⟩)
        rw [List.filter_cons_of_neg (by simp [hne])]
        exact ih hmem2 hnd2

/-- C9 (amended).  For every team with a designated lead that exists in the
store (user ids being unique), the lead accessor returns the designated
lead user wrapped as a single-element collection; for a team with no
designated lead it instead raises `AttributeError` (see the
counterexample), rather than returning a collection. -/
theorem team_lead_single (db : Db) (team : Team) (u : User)
    (hlead : team.team_lead = some u.user_id)
    (hmem : u ∈ db.users)
    (hnd : (db.users.map User.user_id).Nodup) :
    TeamViewSet.lead db team = .ok [u] := by
  unfold TeamViewSet.lead
  rw [hlead]
  dsimp only
  rw [filter_user_id_single db.users u hmem hnd]

/-- Store for the C9 witness: a team whose designated lead is user 1. -/
def dbW9 : Db :=
  ⟨[⟨1, "alice", none, none, "alice@uwa.edu", some 1⟩,
    ⟨2, "bob", none, none, "bob@uwa.edu", none⟩],
    [⟨1, "Powertrain", some 1⟩], [], [], []⟩

/-- Witness for the amended C9 at a concrete store and team. -/
theorem team_lead_single_witness :
    TeamViewSet.lead dbW9 ⟨1, "Powertrain", some 1⟩ =
      .ok [⟨1, "alice", none, none, "alice@uwa.edu", some 1⟩] :=
  team_lead_single dbW9 ⟨1, "Powertrain", some 1⟩
    ⟨1, "alice", none, none, "alice@uwa.edu", some 1⟩
    (by decide) (by decide) (by decide)

/- ## Cascade semantics of the declared on_delete rules (C7, C8) -/

/-- Deletion of a `Team` row, propagating the `on_delete` declarations of
models.py: `Subsystem.parent_team` is `CASCADE` (line 62), so every
subsystem owned by the team is deleted; `User.team` is `SET_NULL` (line 23),
so users referencing the team survive with a null reference; and each
cascaded subsystem deletion in turn applies `Record.subsystem`'s `SET_NULL`
(line 84), nulling the reference in records that pointed at it. -/
def deleteTeam (db : Db) (t : Team) : Db :=
  let deadSubs := db.subsystems.filter (fun s => s.parent_team == some t.team_id)
  let keptSubs := db.subsystems.filter (fun s => !(s.parent_team == some t.team_id))
  let users := db.users.map
    (fun u => if u.team == some t.team_id then { u with team := none } else u)
  let records := db.records.map
    (fun r =>
      match r.subsystem with
      | some sid =>
          if deadSubs.any (fun s => s.subsystem_id == sid) then
            { r with subsystem := none }
          else r
      | none => r)
  { db with
    teams := db.teams.filter (fun x => !(x.team_id == t.team_id)),
    subsystems := keptSubs,
    users := users,
    records := records }

/-- C7.  Deleting a team deletes exactly the subsystems whose parent is that
team, while every user survives: the user rows keep their count, a user
whose team reference was the deleted team survives with the reference set
to null, and all other users are untouched. -/
theorem team_delete_cascade (db : Db) (t : Team) :
    (∀ s ∈ db.subsystems, s.parent_team = some t.team_id →
        s ∉ (deleteTeam db t).subsystems) ∧
    (∀ s ∈ db.subsystems, s.parent_team ≠ some t.team_id →
        s ∈ (deleteTeam db t).subsystems) ∧
    (deleteTeam db t).users.length = db.users.length ∧
    (∀ u ∈ db.users, u.team = some t.team_id →
        { u with team := none } ∈ (deleteTeam db t).users) ∧
    (∀ u ∈ db.users, u.team ≠ some t.team_id → u ∈ (deleteTeam db t).users) := by
  refine ⟨?_, ?_, ?_, ?_, ?_⟩
  · intro s hs hpar hmem
    rcases List.mem_filter.mp hmem with ⟨_, hkeep⟩
    rw [hpar] at hkeep
    simp at hkeep
  · intro s hs hpar
    refine List.mem_filter.mpr ⟨hs, ?_⟩
    simp [hpar]
  · simp [deleteTeam]
  · intro u hu hteam
    refine List.mem_map.mpr ⟨u, hu, ?_⟩
    simp [hteam]
  · intro u hu hteam
    refine List.mem_map.mpr ⟨u, hu, ?_⟩
    simp [hteam]

/-- Store for the C7 witness: two subsystems, one owned by team 1, and two
users, one on team 1. -/
def dbW7 : Db :=
  ⟨[⟨1, "alice", none, none, "alice@uwa.edu", some 1⟩,
    ⟨2, "bob", none, none, "bob@uwa.edu", some 2⟩],
    [⟨1, "Powertrain", none⟩, ⟨2, "Aero", none⟩],
    [⟨1, "ECU", some 1⟩, ⟨2, "Wing", some 2⟩], [], []⟩

/-- Witness for C7 at a concrete store: deleting team 1 removes subsystem
"ECU", keeps subsystem "Wing", and keeps both users, nulling only the first
one's team reference. -/
theorem team_delete_cascade_witness :
    (⟨1, "ECU", some 1⟩ : Subsystem) ∉
      (deleteTeam dbW7 ⟨1, "Powertrain", none⟩).subsystems ∧
    (⟨2, "Wing", some 2⟩ : Subsystem) ∈
      (deleteTeam dbW7 ⟨1, "Powertrain", none⟩).subsystems ∧
    (deleteTeam dbW7 ⟨1, "Powertrain", none⟩).users.length =
      dbW7.users.length ∧
    (⟨1, "alice", none, none, "alice@uwa.edu", none⟩ : User) ∈
      (deleteTeam dbW7 ⟨1, "Powertrain", none⟩).users ∧
    (⟨2, "bob", none, none, "bob@uwa.edu", some 2⟩ : User) ∈
      (deleteTeam dbW7 ⟨1, "Powertrain", none⟩).users := by
  obtain ⟨h1, h2, h3, h4, h5⟩ := team_delete_cascade dbW7 ⟨1, "Powertrain", none⟩
  exact ⟨h1 ⟨1, "ECU", some 1⟩ (by decide) (by decide),
    h2 ⟨2, "Wing", some 2⟩ (by decide) (by decide), h3,
    h4 ⟨1, "alice", none, none, "alice@uwa.edu", some 1⟩ (by decide) (by decide),
    h5 ⟨2, "bob", none, none, "bob@uwa.edu", some 2⟩ (by decide) (by decide)⟩

/- ## Record deletion cascade over the comment tree (C8) -/

/-- One step of Django's cascade collection for a record deletion: a comment
joins the doomed set when its `record_id` foreign key points at the deleted
record (`on_delete=CASCADE`, models.py line 122) or its `parent_comment_id`
points at an already doomed comment (`on_delete=CASCADE`, models.py line
124). -/
def doomGuard (r : Nat) (acc : List Nat) (c : Comment) : Bool :=
  c.record_id == r ||
    (match c.parent_comment_id with
     | some p => acc.contains p
     | none => false)

/-- Accumulate the comment id when the cascade step applies. -/
def doomStep (r : Nat) (acc : List Nat) (c : Comment) : List Nat :=
  if doomGuard r acc c then c.comment_id :: acc else acc

/-- Ids of the comments deleted by cascading the deletion of record `r`
over the comment rows, processed in storage (creation) order. -/
def cascadeDoomed (r : Nat) (cs : List Comment) : List Nat :=
  cs.foldl (doomStep r) []

/-- Referential well-formedness of the comment table: processed in storage
order, every comment's parent reference points at an already present
comment id. -/
def parentsEarlier : List Nat → List Comment → Bool
  | _, [] => true
  | seen, c :: cs =>
      (match c.parent_comment_id with
       | none => true
       | some p => seen.contains p) && parentsEarlier (c.comment_id :: seen) cs

/-- Deletion of a `Record` row with its declared cascades: the record is
removed and so is every comment collected by `cascadeDoomed`. -/
def deleteRecord (db : Db) (r : Record) : Db :=
  let doomed := cascadeDoomed r.record_id db.comments
  { db with
    records := db.records.filter (fun x => !(x.record_id == r.record_id)),
    comments := db.comments.filter (fun c => !(doomed.contains c.comment_id)) }

theorem mem_foldl_doomStep_of_mem (r : Nat) (cs : List Comment) :
    ∀ (acc : List Nat) (x : Nat), x ∈ acc → x ∈ cs.foldl (doomStep r) acc := by
  induction cs with
  | nil => intro acc x hx; simpa using hx
  | cons a t ih =>
      intro acc x hx
      have hstep : x ∈ doomStep r acc a := by
        unfold doomStep
        split
        · exact List.mem_cons_of_mem _ hx
        · exact hx
      simpa [List.foldl_cons] using ih _ x hstep

theorem mem_of_mem_foldl_doomStep (r : Nat) (cs : List Comment) :
    ∀ (acc : List Nat) (x : Nat), x ∈ cs.foldl (doomStep r) acc →
      x ∈ acc ∨ x ∈ cs.map Comment.comment_id := by
  induction cs with
  | nil => intro acc x hx; exact Or.inl (by simpa using hx)
  | cons a t ih =>
      intro acc x hx
      rcases ih (doomStep r acc a) x (by simpa [List.foldl_cons] using hx)
        with h | h
      · unfold doomStep at h
        split at h
        · rcases List.mem_cons.mp h with rfl | h2
          · exact Or.inr (by simp)
          · exact Or.inl h2
        · exact Or.inl h
      · exact Or.inr (List.mem_cons_of_mem _ h)

theorem record_comment_doomed (r : Nat) (cs : List Comment) :
    ∀ (acc : List Nat) (c : Comment), c ∈ cs → c.record_id = r →
      c.comment_id ∈ cs.foldl (doomStep r) acc := by
  induction cs with
  | nil => intro acc c hc; exact absurd hc (by simp)
  | cons a t ih =>
      intro acc c hc hr
      rcases List.mem_cons.mp hc with rfl | hc2
      · have hg : doomGuard r acc c = true := by
          simp [doomGuard, hr]
        have hmem : c.comment_id ∈ doomStep r acc c := by
          simp [doomStep, hg]
        simpa [List.foldl_cons] using
          mem_foldl_doomStep_of_mem r t _ _ hmem
      · simpa [List.foldl_cons] using ih _ c hc2 hr

theorem parent_mem_of_parentsEarlier :
    ∀ (cs : List Comment) (seen : List Nat), parentsEarlier seen cs = true →
      ∀ c ∈ cs, ∀ p, c.parent_comment_id = some p →
        p ∈ seen ∨ p ∈ cs.map Comment.comment_id := by
  intro cs
  induction cs with
  | nil => intro seen _ c hc; exact absurd hc (by simp)
  | cons a t ih =>
      intro seen hpe c hc p hp
      rw [parentsEarlier, Bool.and_eq_true] at hpe
      obtain ⟨hhead, htail⟩ := hpe
      rcases List.mem_cons.mp hc with rfl | hc2
      · rw [hp] at hhead
        exact Or.inl (by simpa using hhead)
      · rcases ih (a.comment_id :: seen) htail c hc2 p hp with h | h
        · rcases List.mem_cons.mp h with rfl | h2
          · exact Or.inr (by simp)
          · exact Or.inl h2
        · exact Or.inr (List.mem_cons_of_mem _ h)

theorem doom_closure (r : Nat) :
    ∀ (cs : List Comment) (acc seen : List Nat),
      parentsEarlier seen cs = true →
      (∀ x ∈ seen, x ∉ cs.map Comment.comment_id) →
      (cs.map Comment.comment_id).Nodup →
      (∀ x ∈ acc, x ∈ seen) →
      ∀ c ∈ cs, ∀ p, c.parent_comment_id = some p →
        p ∈ cs.foldl (doomStep r) acc →
        c.comment_id ∈ cs.foldl (doomStep r) acc := by
  intro cs
  induction cs with
  | nil => intro acc seen _ _ _ _ c hc; exact absurd hc (by simp)
  | cons a t ih =>
      intro acc seen hpe hdis hnd hacc c hc p hp hpF
      rw [parentsEarlier, Bool.and_eq_true] at hpe
      obtain ⟨hhead, htail⟩ := hpe
      rw [List.map_cons, List.nodup_cons] at hnd
      rcases hnd with ⟨hanin, hnd2⟩
      rcases List.mem_cons.mp hc with rfl | hc2
      · -- c is the head: its parent id was seen before the head
        rw [hp] at hhead
        have hpseen : p ∈ seen := by simpa using hhead
        have hpnott : p ∉ t.map Comment.comment_id := by
          intro hmem
          exact hdis p hpseen (List.mem_cons_of_mem _ hmem)
        have hpacc' : p ∈ doomStep r acc c := by
          rcases mem_of_mem_foldl_doomStep r t _ p
              (by simpa [List.foldl_cons] using hpF) with h | h
          · exact h
          · exact absurd h hpnott
        have hpacc : p ∈ acc := by
          unfold doomStep at hpacc'
          split at hpacc'
          · rcases List.mem_cons.mp hpacc' with rfl | h2
            · exact absurd (hdis _ hpseen) (by simp)
            · exact h2
          · exact hpacc'
        have hg : doomGuard r acc c = true := by
          unfold doomGuard
          rw [hp]
          simp only [Bool.or_eq_true, beq_iff_eq]
          right
          simpa using hpacc
        have : c.comment_id ∈ doomStep r acc c := by
          simp [doomStep, hg]
        simpa [List.foldl_cons] using
          mem_foldl_doomStep_of_mem r t _ _ this
      · -- c is in the tail: recurse with the head processed
        have hdis2 : ∀ x ∈ a.comment_id :: seen,
            x ∉ t.map Comment.comment_id := by
          intro x hx
          rcases List.mem_cons.mp hx with rfl | hx2
          · exact hanin
          · intro hmem
            exact hdis x hx2 (List.mem_cons_of_mem _ hmem)
        have hacc2 : ∀ x ∈ doomStep r acc a, x ∈ a.comment_id :: seen := by
          intro x hx
          unfold doomStep at hx
          split at hx
          · rcases List.mem_cons.mp hx with rfl | hx2
            · exact List.mem_cons_self _ _
            · exact List.mem_cons_of_mem _ (hacc x hx2)
          · exact List.mem_cons_of_mem _ (hacc x hx)
        have := ih (doomStep r acc a) (a.comment_id :: seen) htail hdis2
          hnd2 hacc2 c hc2 p hp (by simpa [List.foldl_cons] using hpF)
        simpa [List.foldl_cons] using this

/-- C8.  Deleting a record deletes every comment attached to it, and the
deletion closes over the reply relation: with unique comment ids and
parent references pointing at previously created comments, no comment
attached to the deleted record survives, and every surviving comment's
parent also survives — equivalently, replies nested under a deleted parent
comment are deleted to any depth. -/
theorem record_delete_cascade (db : Db) (r : Record)
    (hnd : (db.comments.map Comment.comment_id).Nodup)
    (hpe : parentsEarlier [] db.comments = true) :
    (∀ c ∈ db.comments, c.record_id = r.record_id →
        c ∉ (deleteRecord db r).comments) ∧
    (∀ c ∈ (deleteRecord db r).comments, ∀ p, c.parent_comment_id = some p →
        ∃ d, d ∈ (deleteRecord db r).comments ∧ d.comment_id = p) := by
  have hcomments : (deleteRecord db r).comments =
      db.comments.filter
        (fun c => !((cascadeDoomed r.record_id db.comments).contains
          c.comment_id)) := rfl
  constructor
  · intro c hc hr hmem
    have hdoom : c.comment_id ∈ cascadeDoomed r.record_id db.comments :=
      record_comment_doomed r.record_id db.comments [] c hc hr
    rw [hcomments] at hmem
    rcases List.mem_filter.mp hmem with ⟨_, hkeep⟩
    simp only [Bool.not_eq_true'] at hkeep
    exact (by simpa using hkeep :
      c.comment_id ∉ cascadeDoomed r.record_id db.comments) hdoom
  · intro c hc p hp
    rw [hcomments] at hc
    rcases List.mem_filter.mp hc with ⟨hcmem, hkeep⟩
    have hckeep : c.comment_id ∉ cascadeDoomed r.record_id db.comments := by
      simpa using hkeep
    rcases parent_mem_of_parentsEarlier db.comments [] hpe c hcmem p hp
      with h | h
    · exact absurd h (List.not_mem_nil p)
    · rcases List.mem_map.mp h with ⟨d, hdmem, hdid⟩
      refine ⟨d, ?_, hdid⟩
      rw [hcomments]
      refine List.mem_filter.mpr ⟨hdmem, ?_⟩
      have hpnot : p ∉ cascadeDoomed r.record_id db.comments := by
        intro hpdoom
        exact hckeep (doom_closure r.record_id db.comments [] [] hpe
          (by simp) hnd (by simp) c hcmem p hp hpdoom)
      rw [hdid]
      simpa using hpnot

/-- Record row for the C8 witness. -/
def recW8 : Record :=
  ⟨1, some false, none, none, none, none, none, none, none, none, none,
    none, none, none, 0, some false, some false, some false, some false,
    some false⟩

/-- Store for the C8 witness: record 1 carries a root comment; a reply to it
and an unrelated comment live on record 2. -/
def dbW8 : Db :=
  ⟨[], [], [], [recW8],
    [⟨1, 1, none, none, 0, "root"⟩,
     ⟨2, 2, some 1, none, 1, "reply"⟩,
     ⟨3, 2, none, none, 2, "other"⟩]⟩

/-- Witness for C8 at a concrete store: the comment attached to record 1 is
deleted when record 1 is deleted. -/
theorem record_delete_cascade_witness :
    (⟨1, 1, none, none, 0, "root"⟩ : Comment) ∉
      (deleteRecord dbW8 recW8).comments :=
  (record_delete_cascade dbW8 recW8 (by decide) (by decide)).1
    ⟨1, 1, none, none, 0, "root"⟩ (by decide) (by decide)
